import Mathlib

set_option maxRecDepth 8000

/-!
Shallow embedding of `tinyxmp.py` (commonsmachinery/tinyxmp).

Byte strings are `List Nat` (each entry a byte value).  Python 2 semantics
are used throughout: `str` literals and byte strings are the same type, so
comparisons such as `chunk_type == "IHDR"` compare byte lists.  Fallible
operations return `Except Err`; the distinct constructors of `Err` name the
distinct raise sites of the source (all of which raise `XMPError` except the
Python built-ins `struct.error`, `IndexError` and `TypeError`).
-/

namespace Tinyxmp

/-- ASCII bytes of a string literal. -/
def bs (s : String) : List Nat := s.data.map Char.toNat

/-- Error kinds: one per raise site of the source (spec section 7 taxonomy
plus the Python built-in exceptions the source can raise). -/
inductive Err where
  | notAJpeg
  | notAPng
  | invalidSegment
  | structError
  | checksumError
  | noInsertionPoint
  | packetTooBig
  | indexError
  | typeError
  | fuelOut
deriving DecidableEq, Repr

/-- Decidable equality for `Except`, used to evaluate the model on concrete
inputs. -/
instance {α β : Type} [DecidableEq α] [DecidableEq β] : DecidableEq (Except α β) :=
  fun x y =>
    match x, y with
    | .error a, .error b =>
      if h : a = b then isTrue (by rw [h]) else isFalse (by simp [h])
    | .ok a, .ok b =>
      if h : a = b then isTrue (by rw [h]) else isFalse (by simp [h])
    | .error _, .ok _ => isFalse (by simp)
    | .ok _, .error _ => isFalse (by simp)

/-- Python `bytes.find`: index of the first occurrence of `pat`, if any. -/
def subFind (pat : List Nat) : List Nat → Option Nat
  | [] => if pat.isEmpty then some 0 else none
  | x :: t => if pat.isPrefixOf (x :: t) then some 0 else (subFind pat t).map (· + 1)

/-- Python `bytes.rfind`: index of the last occurrence of `pat`, if any. -/
def subRFind (pat : List Nat) : List Nat → Option Nat
  | [] => if pat.isEmpty then some 0 else none
  | x :: t =>
    match subRFind pat t with
    | some i => some (i + 1)
    | none => if pat.isPrefixOf (x :: t) then some 0 else none

/-- Helper for `subCount`: number of non-overlapping occurrences of a
nonempty `pat`; after a match the next `pat.length - 1` positions are
skipped, so the continuation resumes right after the matched occurrence as
Python `count` does. -/
def subCountGo (pat : List Nat) : List Nat → Nat → Nat
  | [], _ => 0
  | _ :: t, skip + 1 => subCountGo pat t skip
  | x :: t, 0 =>
    if pat.isPrefixOf (x :: t) then 1 + subCountGo pat t (pat.length - 1)
    else subCountGo pat t 0

/-- Python `bytes.count`: non-overlapping occurrences of `pat`. -/
def subCount (pat xs : List Nat) : Nat :=
  if pat.isEmpty then xs.length + 1 else subCountGo pat xs 0

/-- Python `find`/`rfind` result convention: `-1` when absent. -/
def pyFind (pat xs : List Nat) : Int :=
  match subFind pat xs with
  | some i => (i : Int)
  | none => -1

/-- Python `rfind` result convention: `-1` when absent. -/
def pyRFind (pat xs : List Nat) : Int :=
  match subRFind pat xs with
  | some i => (i : Int)
  | none => -1

/-- Normalization of one Python slice bound for a sequence of length `n`. -/
def pyBound (n : Nat) (i : Int) : Nat :=
  if i < 0 then (i + n).toNat else min i.toNat n

/-- Python slice `xs[a:b]` (step 1), with negative-index semantics. -/
def pyslice (xs : List Nat) (a b : Int) : List Nat :=
  (xs.take (pyBound xs.length b)).drop (pyBound xs.length a)

/-- UTF-8 byte-order mark. -/
def bom : List Nat := [239, 187, 191]

/-- `wrap_packet(rdf, guid)` from the source (the `guid=None` default draws a
random uuid; the model always takes the id explicitly). -/
def wrap_packet (rdf guid : List Nat) : List Nat :=
  bs "<?xpacket begin=\"" ++ bom ++ bs "\" id=\"" ++ guid ++ bs "\"?>" ++
    bs "<x:xmpmeta xmlns:x=\"adobe:ns:meta/\">" ++ rdf ++
    bs "</x:xmpmeta>" ++ bs "<?xpacket end=\"w\"?>"

/-- `unwrap_packet(xmp)` from the source: slice from the first `<rdf:RDF`
to just past the first `</rdf:RDF>` (Python `-1` slice semantics when a
marker is absent). -/
def unwrap_packet (xmp : List Nat) : List Nat :=
  pyslice xmp (pyFind (bs "<rdf:RDF") xmp) (pyFind (bs "</rdf:RDF>") xmp + 10)

/-- `packet_is_wrapped(xmp)` from the source. -/
def packet_is_wrapped (xmp : List Nat) : Bool :=
  subCount (bs "<?xpacket") xmp == 2

/-- The padding bytes built by `pad_packet`: `delta` spaces with a newline at
every 80th index, and the final byte forced to a newline. -/
def padFill (delta : Nat) : List Nat :=
  (List.range delta).map fun i => if i = delta - 1 then 10 else if i % 80 = 0 then 10 else 32

/-- `pad_packet(xmp, size)` from the source.  When `len(xmp) == size` the
source executes `pad[-1] = ord(b'\n')` on an empty bytearray, which raises
`IndexError`; the model keeps that behavior. -/
def pad_packet (xmp : List Nat) (size : Nat) : Except Err (List Nat) :=
  if xmp.length > size then .error .packetTooBig
  else
    let delta := size - xmp.length
    let pe := pyRFind (bs "<?xpacket") xmp
    let left := pyslice xmp 0 pe
    let right := pyslice xmp pe xmp.length
    if delta = 0 then .error .indexError
    else .ok (left ++ padFill delta ++ right)

/-- Truthiness of the `new_xmp` argument (`if new_xmp:`): `None` and the
empty byte string are falsy. -/
def truthy : Option (List Nat) → Bool
  | some x => !x.isEmpty
  | none => false

/-! JPEG container (`JpegMetadata`). -/

/-- Payload signature of an `APP1` Exif segment. -/
def exifSig : List Nat := bs "Exif" ++ [0, 0]

/-- Payload signature of an `APP1` XMP segment (28 chars plus NUL, 29 bytes). -/
def xmpNs : List Nat := bs "http://ns.adobe.com/xap/1.0/" ++ [0]

/-- `JpegMetadata._read_segment` at file offset `pos`: returns
`(type, length, data, next position)`.  Reads return the available bytes
(Python `file.read`); `struct.unpack` on a short read raises
`struct.error`.  A length field below 2 makes `f.read(length - 2)` read a
negative count, which in Python reads to end of file. -/
def readSeg (file : List Nat) (pos : Nat) : Except Err (Nat × Nat × List Nat × Nat) :=
  let magic := (file.drop pos).take 1
  if magic ≠ [255] then .error .invalidSegment
  else
    let tb := (file.drop (pos + 1)).take 1
    if tb.length ≠ 1 then .error .structError
    else
      let lb := (file.drop (pos + 2)).take 2
      if lb.length ≠ 2 then .error .structError
      else
        let t := tb.headD 0
        let L := 256 * lb.headD 0 + (lb.drop 1).headD 0
        let data := if L < 2 then file.drop (pos + 4) else (file.drop (pos + 4)).take (L - 2)
        .ok (t, L, data, pos + 4 + data.length)

/-- The `while True` scan loop of `JpegMetadata._process`, with the current
position, the candidate insertion point (`xmp_seg_pos`) and a fuel bound for
termination.  Returns `(xmp_seg_pos, xmp_seg_size, xmp_packet)`. -/
def jpegScanLoop (file : List Nat) : Nat → Nat → Nat → Except Err (Nat × Nat × List Nat)
  | _, _, 0 => .error .fuelOut
  | pos, ins, fuel + 1 =>
    match readSeg file pos with
    | .error e => .error e
    | .ok (t, L, data, pos') =>
      if t = 224 then jpegScanLoop file pos' pos' fuel
      else if t = 225 ∧ exifSig.isPrefixOf data = true then jpegScanLoop file pos' pos' fuel
      else if t = 225 ∧ xmpNs.isPrefixOf data = true then .ok (pos, L, data.drop 29)
      else if t = 218 then .ok (ins, 0, [])
      else jpegScanLoop file pos' ins fuel

/-- `JpegMetadata._write_segment`: `struct.pack(">cBH%ds")` raises
`struct.error` when the value does not fit its field. -/
def writeSeg (t : Nat) (data : List Nat) : Except Err (List Nat) :=
  if t > 255 ∨ data.length + 2 > 65535 then .error .structError
  else .ok ([255, t] ++ [(data.length + 2) / 256, (data.length + 2) % 256] ++ data)

/-- The wrap-if-needed step of the write path. -/
def framedPacket (guid new : List Nat) : List Nat :=
  if packet_is_wrapped new then new else wrap_packet new guid

/-- `JpegMetadata._process(new_xmp)`: returns the file content after the call
together with the error or the value stored into the handle's `_xmp` cache
(`none` when the cache is left untouched).  The grow path writes a temporary
file (prefix of `xmp_seg_pos` bytes, the new segment, then the remainder of
the original starting `xmp_seg_size` bytes further) and moves it over the
original only once fully written; every error path leaves the original file
content, which the pair faithfully records. -/
def jpegProcess (guid file : List Nat) (newXmp : Option (List Nat)) :
    List Nat × Except Err (Option (List Nat)) :=
  if file.take 2 ≠ [255, 216] then (file, .error .notAJpeg)
  else
    match jpegScanLoop file 2 2 (file.length + 1) with
    | .error e => (file, .error e)
    | .ok (pos, size, packet) =>
      if truthy newXmp = true then
        let nx := newXmp.getD []
        if pos = 0 then (file, .error .noInsertionPoint)
        else
          let w := framedPacket guid nx
          if w.length > 65502 then (file, .error .packetTooBig)
          else if w.length > packet.length then
            match pad_packet w ((w.length / 4000 + 1) * 4000) with
            | .error e => (file, .error e)
            | .ok padded =>
              match writeSeg 225 (xmpNs ++ padded) with
              | .error e => (file, .error e)
              | .ok seg =>
                (file.take pos ++ seg ++ file.drop (pos + size),
                  .ok (some (unwrap_packet padded)))
          else
            match pad_packet w packet.length with
            | .error e => (file, .error e)
            | .ok padded =>
              match writeSeg 225 (xmpNs ++ padded) with
              | .error e => (file, .error e)
              | .ok seg =>
                (file.take pos ++ seg ++ file.drop (pos + seg.length),
                  .ok (some (unwrap_packet padded)))
      else
        (file, .ok (if packet.isEmpty then none else some (unwrap_packet packet)))

/-- The metadata handle: the `_xmp` field of `Metadata`. -/
structure Handle where
  xmp : Option (List Nat)
deriving DecidableEq, Repr

/-- `has_xmp()`: `bool(self._xmp)`. -/
def has_xmp (h : Handle) : Bool :=
  match h.xmp with
  | some x => !x.isEmpty
  | none => false

/-- `get_xmp()`: `self._xmp[:]`; slicing `None` raises `TypeError`. -/
def get_xmp (h : Handle) : Except Err (List Nat) :=
  match h.xmp with
  | some x => .ok x
  | none => .error .typeError

/-- `Metadata.load` on a `.jpg` path: `Metadata.__init__` runs
`self._process()` first (which stores the unwrapped packet into `_xmp` when
one is found) and then executes `self._xmp = None`, so the handle always ends
with an empty cache. -/
def jpegLoad (guid file : List Nat) : Except Err Handle :=
  match (jpegProcess guid file none).2 with
  | .error e => .error e
  | .ok _xmpSetByProcess => .ok { xmp := none }

/-! PNG container (`PngMetadata`). -/

/-- Big-endian 4-byte encoding (`struct.pack(">I")`). -/
def be32 (n : Nat) : List Nat :=
  [n / 16777216 % 256, n / 65536 % 256, n / 256 % 256, n % 256]

/-- One bit step of CRC-32 (reflected polynomial `0xEDB88320`). -/
def crc32Step (c : Nat) : Nat :=
  if c % 2 = 1 then Nat.xor (c / 2) 3988292384 else c / 2

/-- One byte step of CRC-32. -/
def crc32Byte (c b : Nat) : Nat := crc32Step^[8] (Nat.xor c b)

/-- `zlib.crc32` (initial value and final xor `0xFFFFFFFF`). -/
def crc32 (data : List Nat) : Nat :=
  Nat.xor (data.foldl crc32Byte 4294967295) 4294967295

/-- `PngMetadata._read_chunk` at offset `pos`: returns
`(length, type, data, crc, next position)`.  The two `struct.unpack(">I")`
calls raise `struct.error` on short reads; the 4-byte type read and the
payload read just return the available bytes.  The stored CRC is compared
with `zlib.crc32(type + data) & 0xffffffff`. -/
def pngReadChunk (file : List Nat) (pos : Nat) :
    Except Err (Nat × List Nat × List Nat × Nat × Nat) :=
  let lb := (file.drop pos).take 4
  if lb.length ≠ 4 then .error .structError
  else
    let L := 16777216 * lb.headD 0 + 65536 * (lb.drop 1).headD 0 +
      256 * (lb.drop 2).headD 0 + (lb.drop 3).headD 0
    let ty := (file.drop (pos + 4)).take 4
    let pos2 := pos + 4 + ty.length
    let data := (file.drop pos2).take L
    let pos3 := pos2 + data.length
    let cb := (file.drop pos3).take 4
    if cb.length ≠ 4 then .error .structError
    else
      let crc := 16777216 * cb.headD 0 + 65536 * (cb.drop 1).headD 0 +
        256 * (cb.drop 2).headD 0 + (cb.drop 3).headD 0
      if crc32 (ty ++ data) % 4294967296 ≠ crc then .error .checksumError
      else .ok (L, ty, data, crc, pos3 + 4)

/-- Keyword + flags payload signature of the XMP `iTXt` chunk (22 bytes). -/
def xmpKeyword : List Nat := bs "XML:com.adobe.xmp" ++ [0, 0, 0, 0, 0]

/-- The scan loop of `PngMetadata._process`: position, candidate insertion
point (`xmp_seg_pos`, initially 0), fuel.  Returns
`(xmp_seg_pos, xmp_seg_size, xmp_packet)`. -/
def pngScanLoop (file : List Nat) : Nat → Nat → Nat → Except Err (Nat × Nat × List Nat)
  | _, _, 0 => .error .fuelOut
  | pos, ins, fuel + 1 =>
    match pngReadChunk file pos with
    | .error e => .error e
    | .ok (L, ty, data, _crc, pos') =>
      if ty = bs "IHDR" then pngScanLoop file pos' pos' fuel
      else if ty = bs "iTXt" ∧ xmpKeyword.isPrefixOf data = true then
        .ok (pos, L + 12, data.drop 22)
      else if ty = bs "IEND" then .ok (ins, 0, [])
      else pngScanLoop file pos' ins fuel

/-- `PngMetadata._write_chunk`: `struct.pack(">I4s%dsI")`; `4s` pads or
truncates the type to 4 bytes, `I` raises `struct.error` above `2^32 - 1`;
the CRC is recomputed over `type + data`. -/
def pngWriteChunk (ty data : List Nat) : Except Err (List Nat) :=
  if data.length ≥ 4294967296 then .error .structError
  else
    let ty4 := (ty ++ List.replicate 4 0).take 4
    .ok (be32 data.length ++ ty4 ++ data ++ be32 (crc32 (ty ++ data) % 4294967296))

/-- PNG signature bytes. -/
def pngMagic : List Nat := [137, 80, 78, 71, 13, 10, 26, 10]

/-- `PngMetadata._process(new_xmp)`: same conventions as `jpegProcess`.
The PNG path has no 65502-byte ceiling; `xmp_seg_size` is the full record
size (`chunk_length + 12`), so the grow-path remainder copy starts exactly
after the old record. -/
def pngProcess (guid file : List Nat) (newXmp : Option (List Nat)) :
    List Nat × Except Err (Option (List Nat)) :=
  if file.take 8 ≠ pngMagic then (file, .error .notAPng)
  else
    match pngScanLoop file 8 0 (file.length + 1) with
    | .error e => (file, .error e)
    | .ok (pos, size, packet) =>
      if truthy newXmp = true then
        let nx := newXmp.getD []
        if pos = 0 then (file, .error .noInsertionPoint)
        else
          let w := framedPacket guid nx
          if w.length > packet.length then
            match pad_packet w ((w.length / 4000 + 1) * 4000) with
            | .error e => (file, .error e)
            | .ok padded =>
              match pngWriteChunk (bs "iTXt") (xmpKeyword ++ padded) with
              | .error e => (file, .error e)
              | .ok ch =>
                (file.take pos ++ ch ++ file.drop (pos + size),
                  .ok (some (unwrap_packet padded)))
          else
            match pad_packet w packet.length with
            | .error e => (file, .error e)
            | .ok padded =>
              match pngWriteChunk (bs "iTXt") (xmpKeyword ++ padded) with
              | .error e => (file, .error e)
              | .ok ch =>
                (file.take pos ++ ch ++ file.drop (pos + ch.length),
                  .ok (some (unwrap_packet padded)))
      else
        (file, .ok (if packet.isEmpty then none else some (unwrap_packet packet)))

/-! Concrete inputs used by the claims. -/

/-- A fixed packet id standing in for the random `uuid4` default. -/
def guid0 : List Nat := bs "abc"

/-- A JPEG whose APP1 XMP record carries the packet `<rdf:RDF></rdf:RDF>`:
SOI, one APP1 segment (length 50 = 2 + 29-byte namespace + 19-byte packet),
then SOS. -/
def jpegWithXmp : List Nat :=
  [255, 216] ++ [255, 225, 0, 50] ++ xmpNs ++ bs "<rdf:RDF></rdf:RDF>" ++ [255, 218, 0, 2]

/-- A JPEG whose APP1 XMP record carries the 2-byte packet `AB` (length
field 33 = 2 + 29 + 2), followed by SOS; the record occupies bytes 2..36 and
the bytes after the record are `FF DA 00 02`. -/
def jpegWithXmpAB : List Nat :=
  [255, 216] ++ [255, 225, 0, 33] ++ xmpNs ++ [65, 66] ++ [255, 218, 0, 2]

/-- A JPEG with a corrupted APP1 length field: the declared length 8 makes
the walk swallow the `FF DA` Start-of-Scan marker inside the segment payload
and land on offset 12, whose byte is 0. -/
def jpegCorruptLen : List Nat :=
  [255, 216, 255, 225, 0, 8, 65, 65, 255, 218, 65, 65, 0, 0]

/-- A JPEG with no APP0, no APP1 at all, and no XMP record: SOI then SOS. -/
def jpegNoAnchors : List Nat := [255, 216, 255, 218, 0, 2]

/-! Shared helper lemmas. -/

/-- A one-byte read at offset `pos` yields the byte `file.get? pos`, or
nothing at end of file. -/
theorem take1_drop (file : List Nat) (pos : Nat) :
    (file.drop pos).take 1 = (file.get? pos).elim [] (fun b => [b]) := by
  induction file generalizing pos with
  | nil => simp
  | cons x t ih =>
    cases pos with
    | zero => simp
    | succ p => simpa using ih p

/-- Padding a packet to a strictly larger size succeeds and produces exactly
the requested length. -/
theorem pad_packet_ok (xmp : List Nat) (size : Nat) (h : xmp.length < size) :
    ∃ out, pad_packet xmp size = .ok out ∧ out.length = size := by
  unfold pad_packet
  rw [if_neg (by omega)]
  dsimp only
  rw [if_neg (by omega)]
  refine ⟨_, rfl, ?_⟩
  have hb : pyBound xmp.length (pyRFind (bs "<?xpacket") xmp) ≤ xmp.length := by
    unfold pyBound
    split
    · omega
    · omega
  simp only [pyslice, padFill, List.length_append, List.length_drop, List.length_take,
    List.length_map, List.length_range]
  have h0 : pyBound xmp.length ((0 : Int)) = 0 := by simp [pyBound]
  have hn : pyBound xmp.length ((xmp.length : Nat) : Int) = xmp.length := by
    simp [pyBound]
  rw [h0, hn]
  omega

/-- `_read_segment` advances the position by at least 4 bytes. -/
theorem readSeg_ok_pos (file : List Nat) (pos : Nat) (t L : Nat) (data : List Nat) (p' : Nat)
    (h : readSeg file pos = .ok (t, L, data, p')) : p' = pos + 4 + data.length := by
  unfold readSeg at h
  dsimp only at h
  split at h
  · exact absurd h (by simp)
  · split at h
    · exact absurd h (by simp)
    · split at h
      · exact absurd h (by simp)
      · simp only [Except.ok.injEq, Prod.mk.injEq] at h
        obtain ⟨-, -, h3, h4⟩ := h
        subst h3
        omega

/-- `_read_segment` can only fail with the invalid-segment or struct errors. -/
theorem readSeg_error_kind (file : List Nat) (pos : Nat) (e : Err)
    (h : readSeg file pos = .error e) : e = .invalidSegment ∨ e = .structError := by
  unfold readSeg at h
  dsimp only at h
  split at h
  · simp only [Except.error.injEq] at h
    exact Or.inl h.symm
  · split at h
    · simp only [Except.error.injEq] at h
      exact Or.inr h.symm
    · split at h
      · simp only [Except.error.injEq] at h
        exact Or.inr h.symm
      · exact absurd h (by simp)

/-- The JPEG scan loop preserves positivity of the returned position: both the
current position and the candidate insertion point stay positive, so the
returned `xmp_seg_pos` is never 0. -/
theorem jpegScanLoop_pos_pos (file : List Nat) :
    ∀ fuel pos ins r, 0 < pos → 0 < ins →
      jpegScanLoop file pos ins fuel = .ok r → 0 < r.1 := by
  intro fuel
  induction fuel with
  | zero => intro pos ins r _ _ h; exact absurd h (by simp [jpegScanLoop])
  | succ n ih =>
    intro pos ins r hpos hins h
    unfold jpegScanLoop at h
    cases hseg : readSeg file pos with
    | error e => rw [hseg] at h; exact absurd h (by simp)
    | ok v =>
      obtain ⟨t, L, data, p'⟩ := v
      have hp' : p' = pos + 4 + data.length := readSeg_ok_pos file pos t L data p' hseg
      rw [hseg] at h
      simp only at h
      split at h
      · exact ih p' p' r (by omega) (by omega) h
      · split at h
        · exact ih p' p' r (by omega) (by omega) h
        · split at h
          · simp only [Except.ok.injEq] at h
            subst h; simpa using hpos
          · split at h
            · simp only [Except.ok.injEq] at h
              subst h; simpa using hins
            · exact ih p' ins r (by omega) hins h

/-- The JPEG scan loop only fails with segment-read errors or fuel
exhaustion. -/
theorem jpegScanLoop_error_kind (file : List Nat) :
    ∀ fuel pos ins e, jpegScanLoop file pos ins fuel = .error e →
      e = .invalidSegment ∨ e = .structError ∨ e = .fuelOut := by
  intro fuel
  induction fuel with
  | zero =>
    intro pos ins e h
    simp only [jpegScanLoop, Except.error.injEq] at h
    exact Or.inr (Or.inr h.symm)
  | succ n ih =>
    intro pos ins e h
    unfold jpegScanLoop at h
    cases hseg : readSeg file pos with
    | error e' =>
      rw [hseg] at h
      simp only [Except.error.injEq] at h
      subst h
      rcases readSeg_error_kind file pos e' hseg with h' | h'
      · exact Or.inl h'
      · exact Or.inr (Or.inl h')
    | ok v =>
      obtain ⟨t, L, data, p'⟩ := v
      rw [hseg] at h
      simp only at h
      split at h
      · exact ih p' p' e h
      · split at h
        · exact ih p' p' e h
        · split at h
          · exact absurd h (by simp)
          · split at h
            · exact absurd h (by simp)
            · exact ih p' ins e h

/-- `pad_packet` can only fail with the too-big error or the `IndexError`
from `pad[-1]` on an empty padding. -/
theorem pad_packet_error_kind (xmp : List Nat) (size : Nat) (e : Err)
    (h : pad_packet xmp size = .error e) : e = .packetTooBig ∨ e = .indexError := by
  unfold pad_packet at h
  split at h
  · simp only [Except.error.injEq] at h
    exact Or.inl h.symm
  · dsimp only at h
    split at h
    · simp only [Except.error.injEq] at h
      exact Or.inr h.symm
    · exact absurd h (by simp)

/-- `_write_segment` can only fail with `struct.error`. -/
theorem writeSeg_error_kind (t : Nat) (data : List Nat) (e : Err)
    (h : writeSeg t data = .error e) : e = .structError := by
  unfold writeSeg at h
  split at h
  · simp only [Except.error.injEq] at h
    exact h.symm
  · exact absurd h (by simp)

/-- Byte length of `wrap_packet`: the fixed framing contributes 96 bytes. -/
theorem wrap_length (rdf guid : List Nat) :
    (wrap_packet rdf guid).length = 96 + guid.length + rdf.length := by
  have h1 : (bs "<?xpacket begin=\"").length = 17 := by decide
  have h2 : (bs "\" id=\"").length = 6 := by decide
  have h3 : (bs "\"?>").length = 3 := by decide
  have h4 : (bs "<x:xmpmeta xmlns:x=\"adobe:ns:meta/\">").length = 36 := by decide
  have h5 : (bs "</x:xmpmeta>").length = 12 := by decide
  have h6 : (bs "<?xpacket end=\"w\"?>").length = 19 := by decide
  simp only [wrap_packet, List.length_append, h1, h2, h3, h4, h5, h6]
  simp [bom]
  omega

/-- `_write_segment` succeeds whenever the length field fits, and the output
is 4 bytes of header plus the payload. -/
theorem writeSeg_ok (t : Nat) (data : List Nat) (ht : t ≤ 255)
    (hd : data.length + 2 ≤ 65535) :
    ∃ out, writeSeg t data = .ok out ∧ out.length = 4 + data.length := by
  unfold writeSeg
  rw [if_neg (by omega)]
  refine ⟨_, rfl, ?_⟩
  simp [List.length_append]
  omega

/-- Dropping the first two parts of a three-part concatenation. -/
theorem drop_append2 (a b c : List Nat) (n : Nat) (h : n = a.length + b.length) :
    (a ++ b ++ c).drop n = c := by
  subst h
  rw [← List.length_append]
  exact List.drop_left _ _

/-- The grow path of `JpegMetadata._process`, fully rewritten: when the scan
succeeds, the framed packet passes the ceiling and exceeds the slot, padding
succeeds and the segment write succeeds, the rebuilt file is prefix ++ new
segment ++ remainder starting `xmp_seg_size` bytes after the record start. -/
theorem jpegProcess_grow (guid file new : List Nat) (pos size : Nat)
    (packet : List Nat) (target : Nat) (P seg : List Nat)
    (hmagic : file.take 2 = [255, 216])
    (hscan : jpegScanLoop file 2 2 (file.length + 1) = .ok (pos, size, packet))
    (hpos : pos ≠ 0)
    (hnew : new.isEmpty = false)
    (hceil : ¬(framedPacket guid new).length > 65502)
    (hgrow : (framedPacket guid new).length > packet.length)
    (htarget : ((framedPacket guid new).length / 4000 + 1) * 4000 = target)
    (hP : pad_packet (framedPacket guid new) target = .ok P)
    (hseg : writeSeg 225 (xmpNs ++ P) = .ok seg) :
    jpegProcess guid file (some new) =
      (file.take pos ++ seg ++ file.drop (pos + size), .ok (some (unwrap_packet P))) := by
  unfold jpegProcess
  rw [if_neg (by simp [hmagic]), hscan]
  have htru : truthy (some new) = true := by simp [truthy, hnew]
  dsimp only
  rw [if_pos htru, if_neg hpos]
  dsimp only [Option.getD]
  rw [if_neg hceil, if_pos hgrow, htarget, hP]
  dsimp only
  rw [hseg]

/-- Variant of the grow path in which the segment write fails: the error is
returned and the original file is kept. -/
theorem jpegProcess_grow_writeError (guid file new : List Nat) (pos size : Nat)
    (packet : List Nat) (target : Nat) (P : List Nat) (e : Err)
    (hmagic : file.take 2 = [255, 216])
    (hscan : jpegScanLoop file 2 2 (file.length + 1) = .ok (pos, size, packet))
    (hpos : pos ≠ 0)
    (hnew : new.isEmpty = false)
    (hceil : ¬(framedPacket guid new).length > 65502)
    (hgrow : (framedPacket guid new).length > packet.length)
    (htarget : ((framedPacket guid new).length / 4000 + 1) * 4000 = target)
    (hP : pad_packet (framedPacket guid new) target = .ok P)
    (hseg : writeSeg 225 (xmpNs ++ P) = .error e) :
    jpegProcess guid file (some new) = (file, .error e) := by
  unfold jpegProcess
  rw [if_neg (by simp [hmagic]), hscan]
  have htru : truthy (some new) = true := by simp [truthy, hnew]
  dsimp only
  rw [if_pos htru, if_neg hpos]
  dsimp only [Option.getD]
  rw [if_neg hceil, if_pos hgrow, htarget, hP]
  dsimp only
  rw [hseg]

/-- The xpacket marker as explicit bytes. -/
theorem bs_xpacket : bs "<?xpacket" = [60, 63, 120, 112, 97, 99, 107, 101, 116] := rfl

/-- No occurrence of the xpacket marker inside a run of `A` bytes. -/
theorem subCountGo_replicate65 (n : Nat) :
    ∀ skip, subCountGo (bs "<?xpacket") (List.replicate n 65) skip = 0 := by
  induction n with
  | zero => intro skip; cases skip <;> rfl
  | succ m ih =>
    intro skip
    rw [List.replicate_succ]
    cases skip with
    | zero =>
      have hpre : (bs "<?xpacket").isPrefixOf (65 :: List.replicate m 65) = false := by
        rw [bs_xpacket]
        simp [List.isPrefixOf]
      simp only [subCountGo, hpre]
      exact ih 0
    | succ k =>
      simp only [subCountGo]
      exact ih k

/-- A run of `A` bytes is not a wrapped packet. -/
theorem packet_is_wrapped_replicate65 (n : Nat) :
    packet_is_wrapped (List.replicate n 65) = false := by
  unfold packet_is_wrapped subCount
  rw [if_neg (by decide)]
  rw [subCountGo_replicate65 n 0]
  rfl

/-- A nonempty replicate is not the empty byte string. -/
theorem replicate_isEmpty_false (n c : Nat) (h : n ≠ 0) :
    (List.replicate n c).isEmpty = false := by
  cases n with
  | zero => omega
  | succ m => rw [List.replicate_succ]; rfl

/-! Claim theorems. -/

/-- C1 (code bug): on `jpegWithXmp` the scan does find and unwrap the XMP
record (the read returns `some (bs "<rdf:RDF></rdf:RDF>")` for the cache),
but `Metadata.__init__` executes `self._xmp = None` after `_process()`, so
the loaded handle has an empty cache: `has_xmp()` is `false` and `get_xmp()`
raises `TypeError`, contradicting the claim that after `load` `has_xmp()` is
true and `get_xmp()` returns the unwrapped RDF bytes. -/
theorem c1_load_clobbers_cache :
    (jpegProcess guid0 jpegWithXmp none).2 = .ok (some (bs "<rdf:RDF></rdf:RDF>")) ∧
    jpegLoad guid0 jpegWithXmp = .ok { xmp := none } ∧
    has_xmp { xmp := none } = false ∧
    get_xmp { xmp := none } = .error .typeError := by
  exact ⟨by decide, by decide, rfl, rfl⟩

/-- C2 (code bug): growing the XMP record of `jpegWithXmpAB` (old record at
offset 2, record bytes 2..36, original tail `FF DA 00 02`) rebuilds the file
with the last two data bytes `65 66` of the old record duplicated in front of
the tail: the remainder copy starts `seg_length` bytes after the record
start, but the record occupies `seg_length + 2` bytes.  The new record ends
at offset 4035 (2 + 4 header + 29 namespace + 4000 padded packet), and the
rebuilt file continues with `65 66 255 218 0 2` instead of `255 218 0 2`, so
the bytes outside the old/new records are not byte-identical. -/
theorem c2_grow_duplicates_record_bytes :
    ((jpegProcess guid0 jpegWithXmpAB (some (bs "<x/>"))).1).drop 4035 =
      [65, 66, 255, 218, 0, 2] ∧
    ((jpegProcess guid0 jpegWithXmpAB (some (bs "<x/>"))).1).length = 4041 := by
  have hw : framedPacket guid0 (bs "<x/>") = wrap_packet (bs "<x/>") guid0 := by
    unfold framedPacket
    rw [if_neg (by decide)]
  have hwlen : (framedPacket guid0 (bs "<x/>")).length = 103 := by
    rw [hw, wrap_length]; decide
  obtain ⟨P, hP, hPlen⟩ :=
    pad_packet_ok (framedPacket guid0 (bs "<x/>")) 4000 (by omega)
  obtain ⟨seg, hseg, hseglen⟩ := writeSeg_ok 225 (xmpNs ++ P)
    (by omega)
    (by
      have : xmpNs.length = 29 := by decide
      simp [List.length_append, this, hPlen])
  have hproc := jpegProcess_grow guid0 jpegWithXmpAB (bs "<x/>") 2 33 [65, 66]
    4000 P seg (by decide) (by decide) (by decide) (by decide)
    (by omega) (by rw [hwlen]; decide) (by rw [hwlen]) hP hseg
  rw [hproc]
  have hseg4033 : seg.length = 4033 := by
    have : xmpNs.length = 29 := by decide
    simp [hseglen, List.length_append, this, hPlen]
  constructor
  · rw [drop_append2 _ _ _ 4035 (by simp [jpegWithXmpAB, hseg4033])]
    decide
  · simp [List.length_append, hseg4033]
    decide

/-- C3 (code bug): `pad_packet(p, len(p))` passes the size guard (which only
rejects `len(xmp) > size`) but then executes `pad[-1] = ord(b'\n')` on an
empty bytearray, raising `IndexError` — so `pad(p, n)` does not return an
`n`-byte string for every `n ≥ len(p)`.  Strictly larger sizes succeed and
strictly smaller sizes fail with the packet-too-big error, as the claim
states. -/
theorem c3_pad_exact_size_raises :
    pad_packet (bs "<?xpacket end=\"w\"?>") (bs "<?xpacket end=\"w\"?>").length =
      .error .indexError ∧
    (pad_packet (bs "<?xpacket end=\"w\"?>") ((bs "<?xpacket end=\"w\"?>").length + 5)).isOk
      = true ∧
    pad_packet (bs "<?xpacket end=\"w\"?>") ((bs "<?xpacket end=\"w\"?>").length - 1) =
      .error .packetTooBig := by
  exact ⟨by decide, by decide, by decide⟩

/-- C4 counterexample: writing a 64000-byte plain RDF string to
`jpegNoAnchors` frames it to 64099 bytes — under the ceiling, so the
pre-padding check passes — and then pads it to 68000 bytes on the grow path;
the framed-and-padded packet is longer than 65502 bytes, yet the operation
fails with `struct.error` from the 16-bit length field of
`_write_segment` (not with the packet-too-large error), the size ceiling
being enforced before padding. -/
theorem c4_padded_overflow_not_rejected :
    jpegProcess guid0 jpegNoAnchors (some (List.replicate 64000 65)) =
      (jpegNoAnchors, .error .structError) := by
  have hw : framedPacket guid0 (List.replicate 64000 65) =
      wrap_packet (List.replicate 64000 65) guid0 := by
    unfold framedPacket
    rw [if_neg (by rw [packet_is_wrapped_replicate65]; simp)]
  have hwlen : (framedPacket guid0 (List.replicate 64000 65)).length = 64099 := by
    rw [hw, wrap_length, List.length_replicate]
    decide
  obtain ⟨P, hP, hPlen⟩ :=
    pad_packet_ok (framedPacket guid0 (List.replicate 64000 65)) 68000 (by omega)
  have hseg : writeSeg 225 (xmpNs ++ P) = .error .structError := by
    unfold writeSeg
    rw [if_pos (Or.inr (by
      have h29 : xmpNs.length = 29 := by decide
      simp [List.length_append, h29, hPlen]))]
  exact jpegProcess_grow_writeError guid0 jpegNoAnchors (List.replicate 64000 65) 2 0 []
    68000 P .structError (by decide) (by decide) (by decide)
    (replicate_isEmpty_false 64000 65 (by omega))
    (by omega) (by rw [hwlen]; decide) (by rw [hwlen]) hP hseg

/-- C4 amended: the ceiling is checked on the framed packet before padding:
whenever the scan succeeds and the framed (unpadded) packet is longer than
65502 bytes, the JPEG write fails with the packet-too-large error and the
file content is returned unchanged. -/
theorem c4_oversize_framed_rejected (guid file new : List Nat) (pos size : Nat)
    (packet : List Nat)
    (hmagic : file.take 2 = [255, 216])
    (hscan : jpegScanLoop file 2 2 (file.length + 1) = .ok (pos, size, packet))
    (hnew : new.isEmpty = false)
    (hbig : (framedPacket guid new).length > 65502) :
    jpegProcess guid file (some new) = (file, .error .packetTooBig) := by
  have hpos : pos ≠ 0 := by
    have h := jpegScanLoop_pos_pos file (file.length + 1) 2 2 (pos, size, packet)
      (by omega) (by omega) hscan
    simp only at h
    omega
  unfold jpegProcess
  rw [if_neg (by simp [hmagic]), hscan]
  have htru : truthy (some new) = true := by simp [truthy, hnew]
  dsimp only
  rw [if_pos htru, if_neg hpos]
  dsimp only [Option.getD]
  rw [if_pos hbig]

/-- C4 witness: a 65500-byte plain RDF string frames to 65599 bytes, above
the ceiling, and the write on `jpegNoAnchors` fails with the packet-too-large
error leaving the file unchanged. -/
theorem c4_oversize_framed_rejected_witness :
    jpegProcess guid0 jpegNoAnchors (some (List.replicate 65500 65)) =
      (jpegNoAnchors, .error .packetTooBig) := by
  have hw : framedPacket guid0 (List.replicate 65500 65) =
      wrap_packet (List.replicate 65500 65) guid0 := by
    unfold framedPacket
    rw [if_neg (by rw [packet_is_wrapped_replicate65]; simp)]
  have hbig : (framedPacket guid0 (List.replicate 65500 65)).length > 65502 := by
    rw [hw, wrap_length, List.length_replicate]
    decide
  exact c4_oversize_framed_rejected guid0 jpegNoAnchors (List.replicate 65500 65) 2 0 []
    (by decide) (by decide) (replicate_isEmpty_false 65500 65 (by omega)) hbig

/-- C5 counterexample: reading `jpegCorruptLen` — whose corrupted APP1 length
field makes the walk swallow the `FF DA` marker and land misaligned on a
zero byte — raises the invalid-segment error instead of completing normally
with no packet found. -/
theorem c5_corrupt_walk_errors :
    (jpegProcess guid0 jpegCorruptLen none).2 = .error .invalidSegment := by decide

/-- C6 counterexample: the output of `wrap_packet` does not begin with the
byte-order mark `EF BB BF`; it begins with the `<?xpacket` processing
instruction (the BOM sits inside the `begin` attribute). -/
theorem c6_no_leading_bom :
    (wrap_packet (bs "<a/>") guid0).take 3 ≠ [239, 187, 191] := by decide

/-- C7 counterexample: the RDF byte string `<rdf:RDF></rdf:RDF>` followed by
a trailing newline contains no reserved marker, yet
`unwrap_packet (wrap_packet r id)` drops the trailing byte, because `unwrap`
cuts at the first `</rdf:RDF>`: the round trip does not hold for every
marker-free byte string. -/
theorem c7_roundtrip_fails_on_trailing_byte :
    unwrap_packet (wrap_packet (bs "<rdf:RDF></rdf:RDF>" ++ [10]) guid0) ≠
      bs "<rdf:RDF></rdf:RDF>" ++ [10] := by decide

/-- C5 amended: whenever the segment walk reaches a position whose byte is
not a `0xFF` marker byte — including end of file — the read fails with the
invalid-segment error (`XMPError("Invalid JPEG segment")`) rather than
completing normally with no packet found. -/
theorem c5_misaligned_walk_fails (file : List Nat) (pos ins fuel : Nat)
    (h : file.get? pos ≠ some 255) :
    jpegScanLoop file pos ins (fuel + 1) = .error .invalidSegment := by
  have hmagic : (file.drop pos).take 1 ≠ [255] := by
    rw [take1_drop]
    cases hx : file.get? pos with
    | none => simp
    | some b =>
      have hb : b ≠ 255 := fun hb => h (by rw [hx, hb])
      simp [hb]
  have hseg : readSeg file pos = .error .invalidSegment := by
    unfold readSeg
    rw [if_pos hmagic]
  simp only [jpegScanLoop, hseg]

/-- C5 witness: in `jpegCorruptLen` the walk reaches offset 12 after the
corrupted segment, where the byte is 0, and the scan fails with the
invalid-segment error. -/
theorem c5_misaligned_walk_fails_witness :
    jpegScanLoop jpegCorruptLen 12 2 1 = .error .invalidSegment :=
  c5_misaligned_walk_fails jpegCorruptLen 12 2 0 (by decide)

/-- C6 amended: `wrap_packet` produces exactly
`<?xpacket begin="` + BOM + `" id="` + id + `"?>` +
`<x:xmpmeta xmlns:x="adobe:ns:meta/">` + rdf + `</x:xmpmeta>` +
`<?xpacket end="w"?>`: the byte-order mark `EF BB BF` appears as the value
of the `begin` attribute, not at the start of the packet. -/
theorem c6_wrap_layout (rdf guid : List Nat) :
    wrap_packet rdf guid =
      [60, 63, 120, 112, 97, 99, 107, 101, 116, 32, 98, 101, 103, 105, 110, 61, 34] ++
        [239, 187, 191] ++ [34, 32, 105, 100, 61, 34] ++ guid ++ [34, 63, 62] ++
        [60, 120, 58, 120, 109, 112, 109, 101, 116, 97, 32, 120, 109, 108, 110, 115, 58,
          120, 61, 34, 97, 100, 111, 98, 101, 58, 110, 115, 58, 109, 101, 116, 97, 47,
          34, 62] ++ rdf ++
        [60, 47, 120, 58, 120, 109, 112, 109, 101, 116, 97, 62] ++
        [60, 63, 120, 112, 97, 99, 107, 101, 116, 32, 101, 110, 100, 61, 34, 119, 34,
          63, 62] := rfl

/-- C8 counterexample: writing to `jpegNoAnchors` — a JPEG whose walk sees no
APP0, no APP1 Exif and no XMP record before Start-of-Scan — succeeds instead
of failing with the no-insertion-point error: `xmp_seg_pos` is initialised to
the offset 2 right after the SOI magic, so it is never 0 on the JPEG path. -/
theorem c8_write_without_anchors_succeeds :
    ((jpegProcess guid0 jpegNoAnchors (some (bs "<rdf:RDF></rdf:RDF>"))).2).isOk = true := by
  have hw : framedPacket guid0 (bs "<rdf:RDF></rdf:RDF>") =
      wrap_packet (bs "<rdf:RDF></rdf:RDF>") guid0 := by
    unfold framedPacket
    rw [if_neg (by decide)]
  have hwlen : (framedPacket guid0 (bs "<rdf:RDF></rdf:RDF>")).length = 118 := by
    rw [hw, wrap_length]; decide
  obtain ⟨P, hP, hPlen⟩ :=
    pad_packet_ok (framedPacket guid0 (bs "<rdf:RDF></rdf:RDF>")) 4000 (by omega)
  obtain ⟨seg, hseg, hseglen⟩ := writeSeg_ok 225 (xmpNs ++ P)
    (by omega)
    (by
      have : xmpNs.length = 29 := by decide
      simp [List.length_append, this, hPlen])
  have hproc := jpegProcess_grow guid0 jpegNoAnchors (bs "<rdf:RDF></rdf:RDF>") 2 0 []
    4000 P seg (by decide) (by decide) (by decide) (by decide)
    (by omega) (by rw [hwlen]; decide) (by rw [hwlen]) hP hseg
  rw [hproc]
  rfl

/-- C8 amended: the JPEG write path can never fail with the
no-insertion-point error: `xmp_seg_pos` is initialised to `f.tell() = 2`
right after the SOI magic and only ever moves forward, so the
`xmp_seg_pos == 0` guard is unreachable; with no anchors the packet is
inserted at offset 2, immediately after the SOI marker. -/
theorem c8_no_insertion_error_unreachable (guid file : List Nat)
    (new : Option (List Nat)) :
    (jpegProcess guid file new).2 ≠ Except.error Err.noInsertionPoint := by
  unfold jpegProcess
  split
  · simp
  · cases hscan : jpegScanLoop file 2 2 (file.length + 1) with
    | error e =>
      rcases jpegScanLoop_error_kind file (file.length + 1) 2 2 e hscan with h | h | h <;>
        simp [h]
    | ok r =>
      obtain ⟨pos, size, packet⟩ := r
      have hpos : pos ≠ 0 := by
        have h := jpegScanLoop_pos_pos file (file.length + 1) 2 2 (pos, size, packet)
          (by omega) (by omega) hscan
        simp only at h
        omega
      dsimp only
      by_cases htr : truthy new = true
      · rw [if_pos htr, if_neg hpos]
        by_cases hc : (framedPacket guid (new.getD [])).length > 65502
        · rw [if_pos hc]
          simp
        · rw [if_neg hc]
          by_cases hg : (framedPacket guid (new.getD [])).length > packet.length
          · rw [if_pos hg]
            cases hpad : pad_packet (framedPacket guid (new.getD []))
                (((framedPacket guid (new.getD [])).length / 4000 + 1) * 4000) with
            | error e =>
              rcases pad_packet_error_kind _ _ e hpad with h | h <;> simp [h]
            | ok P =>
              cases hw : writeSeg 225 (xmpNs ++ P) with
              | error e =>
                have hk := writeSeg_error_kind 225 (xmpNs ++ P) e hw
                simp [hw, hk]
              | ok seg => simp [hw]
          · rw [if_neg hg]
            cases hpad : pad_packet (framedPacket guid (new.getD [])) packet.length with
            | error e =>
              rcases pad_packet_error_kind _ _ e hpad with h | h <;> simp [h]
            | ok P =>
              cases hw : writeSeg 225 (xmpNs ++ P) with
              | error e =>
                have hk := writeSeg_error_kind 225 (xmpNs ++ P) e hw
                simp [hw, hk]
              | ok seg => simp [hw]
      · rw [if_neg htr]
        simp

/-- `be32` always produces 4 bytes. -/
theorem be32_length (n : Nat) : (be32 n).length = 4 := rfl

/-- Parsing back a big-endian 4-byte encoding recovers the value. -/
theorem parse32 (n : Nat) (h : n < 4294967296) :
    16777216 * ((be32 n).headD 0) + 65536 * (((be32 n).drop 1).headD 0) +
      256 * (((be32 n).drop 2).headD 0) + ((be32 n).drop 3).headD 0 = n := by
  simp only [be32, List.drop, List.headD]
  omega

/-- C9: reading one well-formed PNG chunk record recomputes the CRC-32 over
the chunk type and payload (masked to 32 bits); if it differs from the
stored 4-byte CRC the read fails with the checksum error, and otherwise the
chunk is accepted and the scan position moves past the record. -/
theorem c9_png_crc_checked (ty data : List Nat) (crcStored : Nat)
    (hty : ty.length = 4) (hdata : data.length < 4294967296)
    (hcrc : crcStored < 4294967296) :
    pngReadChunk (be32 data.length ++ (ty ++ (data ++ be32 crcStored))) 0 =
      (if crc32 (ty ++ data) % 4294967296 = crcStored then
        .ok (data.length, ty, data, crcStored, 12 + data.length)
      else .error .checksumError) := by
  have e1 : (be32 data.length ++ (ty ++ (data ++ be32 crcStored))).take 4 =
      be32 data.length :=
    List.take_left' (be32_length _)
  have e2 : (be32 data.length ++ (ty ++ (data ++ be32 crcStored))).drop 4 =
      ty ++ (data ++ be32 crcStored) :=
    List.drop_left' (be32_length _)
  have e3 : (ty ++ (data ++ be32 crcStored)).take 4 = ty := List.take_left' hty
  have e4 : (ty ++ (data ++ be32 crcStored)).drop 4 = data ++ be32 crcStored :=
    List.drop_left' hty
  have e5 : (data ++ be32 crcStored).take data.length = data := List.take_left _ _
  have e6 : (data ++ be32 crcStored).drop data.length = be32 crcStored :=
    List.drop_left _ _
  have e7 : (be32 crcStored).take 4 = be32 crcStored := by
    apply List.take_of_length_le
    rw [be32_length]
  have e24 : (be32 data.length ++ (ty ++ (data ++ be32 crcStored))).drop (4 + 4) =
      data ++ be32 crcStored := by
    rw [← List.drop_drop, e2, e4]
  have e25 : (be32 data.length ++ (ty ++ (data ++ be32 crcStored))).drop
      (4 + 4 + data.length) = be32 crcStored := by
    rw [← List.drop_drop, e24, e6]
  unfold pngReadChunk
  simp only [List.drop_zero, Nat.zero_add]
  rw [e1, if_neg (by simp [be32_length])]
  rw [parse32 data.length hdata, e2, e3, hty, e24, e5, e25, e7,
    if_neg (by simp [be32_length])]
  rw [parse32 crcStored hcrc]
  by_cases hcmp : crc32 (ty ++ data) % 4294967296 = crcStored
  · rw [if_neg (by simp [hcmp]), if_pos hcmp,
      show 4 + 4 + data.length + 4 = 12 + data.length from by omega]
  · rw [if_pos hcmp, if_neg hcmp]

/-- C9 witness: the canonical empty `IEND` chunk with stored CRC
`0xAE426082 = 2923585666` passes the check and is returned with the position
one record further. -/
theorem c9_png_crc_checked_witness :
    pngReadChunk (be32 (List.length ([] : List Nat)) ++
        ([73, 69, 78, 68] ++ (([] : List Nat) ++ be32 2923585666))) 0 =
      .ok (0, [73, 69, 78, 68], [], 2923585666, 12) := by
  have h := c9_png_crc_checked [73, 69, 78, 68] [] 2923585666
    (by decide) (by decide) (by decide)
  rw [h, if_pos (by decide)]
  rfl

/-- C10: calling `write_xmp` with the empty byte string behaves exactly like
a read on both containers: `if new_xmp:` is falsy for `b""` just as for
`None`, so the scan runs, nothing is written, and the file is returned
unchanged. -/
theorem c10_empty_write_is_read (guid file : List Nat) :
    jpegProcess guid file (some []) = jpegProcess guid file none ∧
    pngProcess guid file (some []) = pngProcess guid file none ∧
    (jpegProcess guid file (some [])).1 = file ∧
    (pngProcess guid file (some [])).1 = file := by
  have htj : ¬truthy (some []) = true := by simp [truthy]
  have htn : ¬truthy none = true := by simp [truthy]
  refine ⟨?_, ?_, ?_, ?_⟩
  · unfold jpegProcess
    split
    · rfl
    · cases hscan : jpegScanLoop file 2 2 (file.length + 1) with
      | error e => rfl
      | ok r =>
        obtain ⟨pos, size, packet⟩ := r
        rfl
  · unfold pngProcess
    split
    · rfl
    · cases hscan : pngScanLoop file 8 0 (file.length + 1) with
      | error e => rfl
      | ok r =>
        obtain ⟨pos, size, packet⟩ := r
        rfl
  · unfold jpegProcess
    split
    · rfl
    · cases hscan : jpegScanLoop file 2 2 (file.length + 1) with
      | error e => rfl
      | ok r =>
        obtain ⟨pos, size, packet⟩ := r
        rfl
  · unfold pngProcess
    split
    · rfl
    · cases hscan : pngScanLoop file 8 0 (file.length + 1) with
      | error e => rfl
      | ok r =>
        obtain ⟨pos, size, packet⟩ := r
        rfl

/-! Lemmas on `isPrefixOf` and `subFind`, used to settle the round-trip
behavior of `unwrap_packet` after `wrap_packet`. -/

/-- A Boolean prefix extends over an appended tail. -/
theorem isPrefixOf_append_left (p a b : List Nat) (h : p.isPrefixOf a = true) :
    p.isPrefixOf (a ++ b) = true := by
  rw [List.isPrefixOf_iff_prefix] at h ⊢
  exact h.trans (List.prefix_append a b)

/-- A Boolean prefix of an append that fits inside the left part is a prefix
of the left part. -/
theorem isPrefixOf_of_append (p a b : List Nat) (hlen : p.length ≤ a.length)
    (h : p.isPrefixOf (a ++ b) = true) : p.isPrefixOf a = true := by
  rw [List.isPrefixOf_iff_prefix] at h ⊢
  rw [List.prefix_iff_eq_take] at h ⊢
  rw [List.take_append_of_le_length hlen] at h
  exact h

/-- Bytes under a Boolean prefix agree with the pattern by position. -/
theorem isPrefixOf_get (p xs : List Nat) (h : p.isPrefixOf xs = true) (k : Nat)
    (hk : k < p.length) : xs.get? k = p.get? k := by
  rw [List.isPrefixOf_iff_prefix] at h
  obtain ⟨t, rfl⟩ := h
  exact List.get?_append hk

/-- `subFind` returns the position of an occurrence below which there is
none. -/
theorem subFind_eq_some (pat : List Nat) (hpat : pat ≠ []) :
    ∀ (xs : List Nat) (i : Nat),
      pat.isPrefixOf (xs.drop i) = true →
      (∀ j, j < i → pat.isPrefixOf (xs.drop j) = false) →
      subFind pat xs = some i := by
  intro xs
  induction xs with
  | nil =>
    intro i hocc _
    exfalso
    cases pat with
    | nil => exact hpat rfl
    | cons c p => simp [List.drop_nil, List.isPrefixOf] at hocc
  | cons x t ih =>
    intro i hocc hmin
    cases i with
    | zero =>
      rw [List.drop_zero] at hocc
      unfold subFind
      rw [if_pos hocc]
    | succ i' =>
      have h0 : pat.isPrefixOf (x :: t) = false := by
        have := hmin 0 (by omega)
        simpa using this
      unfold subFind
      rw [if_neg (by simp [h0])]
      have hrec := ih i' (by simpa using hocc)
        (fun j hj => by simpa using hmin (j + 1) (by omega))
      rw [hrec]
      rfl

/-- What a successful `subFind` means: an occurrence at the returned
position and none before it. -/
theorem subFind_spec (pat : List Nat) (hpat : pat ≠ []) :
    ∀ (xs : List Nat) (i : Nat), subFind pat xs = some i →
      pat.isPrefixOf (xs.drop i) = true ∧
      ∀ j, j < i → pat.isPrefixOf (xs.drop j) = false := by
  intro xs
  induction xs with
  | nil =>
    intro i h
    unfold subFind at h
    rw [if_neg (by simp [List.isEmpty_iff, hpat])] at h
    exact absurd h (by simp)
  | cons x t ih =>
    intro i h
    unfold subFind at h
    by_cases hp : pat.isPrefixOf (x :: t) = true
    · rw [if_pos hp] at h
      have hi : i = 0 := by
        have := h
        simp only [Option.some.injEq] at this
        omega
      subst hi
      exact ⟨by simpa using hp, fun j hj => by omega⟩
    · rw [if_neg hp] at h
      cases hf : subFind pat t with
      | none => rw [hf] at h; exact absurd h (by simp)
      | some i' =>
        rw [hf] at h
        simp only [Option.map_some', Option.some.injEq] at h
        obtain ⟨hocc, hmin⟩ := ih i' hf
        have hpf : pat.isPrefixOf (x :: t) = false := by
          cases hb : pat.isPrefixOf (x :: t) with
          | false => rfl
          | true => exact absurd hb hp
        constructor
        · rw [← h]
          simpa using hocc
        · intro j hj
          cases j with
          | zero => simpa using hpf
          | succ j' =>
            have : j' < i' := by omega
            simpa using hmin j' this

/-- The wrap header before the id (26 bytes). -/
def wrapPre : List Nat := bs "<?xpacket begin=\"" ++ bom ++ bs "\" id=\""

/-- The wrap header between the id and the RDF bytes (39 bytes). -/
def wrapMid : List Nat := bs "\"?>" ++ bs "<x:xmpmeta xmlns:x=\"adobe:ns:meta/\">"

/-- The wrap trailer after the RDF bytes (31 bytes). -/
def wrapSuf : List Nat := bs "</x:xmpmeta>" ++ bs "<?xpacket end=\"w\"?>"

/-- `wrap_packet` split into header, RDF and trailer. -/
theorem wrap_decomp (rdf guid : List Nat) :
    wrap_packet rdf guid = (wrapPre ++ guid ++ wrapMid) ++ (rdf ++ wrapSuf) := by
  simp [wrap_packet, wrapPre, wrapMid, wrapSuf, List.append_assoc]

/-- Length of the pre-id header. -/
theorem wrapPre_length : wrapPre.length = 26 := by decide

/-- Length of the post-id header. -/
theorem wrapMid_length : wrapMid.length = 39 := by decide

/-- Length of the trailer. -/
theorem wrapSuf_length : wrapSuf.length = 31 := by decide

/-- In the wrap header around an id without `<` bytes, a `<` (byte 60) can
only sit at offset 0 (the `<?xpacket` instruction) or at offset
`29 + guid.length` (the `<x:xmpmeta` element). -/
theorem header_sixty (guid : List Nat) (hg : 60 ∉ guid) (j : Nat)
    (hj : j < 65 + guid.length)
    (h : (wrapPre ++ guid ++ wrapMid).get? j = some 60) :
    j = 0 ∨ j = 29 + guid.length := by
  have hpg : (wrapPre ++ guid).length = 26 + guid.length := by
    simp [List.length_append, wrapPre_length]
  by_cases h1 : j < 26
  · left
    rw [List.get?_append (by omega), List.get?_append (by rw [wrapPre_length]; omega)] at h
    have hd : ∀ k, k < 26 → wrapPre.get? k = some 60 → k = 0 := by decide
    exact hd j h1 h
  · by_cases h2 : j < 26 + guid.length
    · exfalso
      rw [List.get?_append (by omega),
        List.get?_append_right (by rw [wrapPre_length]; omega)] at h
      exact hg (List.get?_mem (by rw [wrapPre_length] at h; exact h))
    · right
      rw [List.get?_append_right (by omega)] at h
      have hidx : j - (wrapPre ++ guid).length = j - 26 - guid.length := by
        rw [hpg]; omega
      rw [hidx] at h
      have hd : ∀ k, k < 39 → wrapMid.get? k = some 60 → k = 3 := by decide
      have h3 : j - 26 - guid.length = 3 := hd _ (by omega) h
      omega

/-- A pattern that starts with `<` but continues with neither `?` nor `x`
cannot start anywhere inside the wrap header when the id has no `<` byte. -/
theorem no_marker_in_header (guid rest : List Nat) (hg : 60 ∉ guid)
    (pat : List Nat) (hlen : 2 ≤ pat.length)
    (hp0 : pat.get? 0 = some 60)
    (hp1a : pat.get? 1 ≠ some 63) (hp1b : pat.get? 1 ≠ some 120)
    (j : Nat) (hj : j < 65 + guid.length) :
    pat.isPrefixOf (((wrapPre ++ guid ++ wrapMid) ++ rest).drop j) = false := by
  have hhl : (wrapPre ++ guid ++ wrapMid).length = 65 + guid.length := by
    simp [List.length_append, wrapPre_length, wrapMid_length]
    omega
  cases hb : pat.isPrefixOf (((wrapPre ++ guid ++ wrapMid) ++ rest).drop j) with
  | false => rfl
  | true =>
    exfalso
    have h60 : ((wrapPre ++ guid ++ wrapMid) ++ rest).get? j = some 60 := by
      have hx := isPrefixOf_get _ _ hb 0 (by omega)
      rw [List.get?_drop] at hx
      rw [Nat.add_zero] at hx
      rw [hx, hp0]
    have hhead : (wrapPre ++ guid ++ wrapMid).get? j = some 60 := by
      rw [List.get?_append (by omega)] at h60
      exact h60
    have hx1 := isPrefixOf_get _ _ hb 1 (by omega)
    rw [List.get?_drop] at hx1
    rcases header_sixty guid hg j (by omega) hhead with rfl | hj3
    · rw [Nat.zero_add] at hx1
      have hc : ((wrapPre ++ guid ++ wrapMid) ++ rest).get? 1 = some 63 := by
        rw [List.get?_append (by omega),
          List.get?_append (by simp only [List.length_append, wrapPre_length]; omega),
          List.get?_append (by rw [wrapPre_length]; omega)]
        decide
      exact hp1a (by rw [← hx1, hc])
    · subst hj3
      have hc : ((wrapPre ++ guid ++ wrapMid) ++ rest).get? (29 + guid.length + 1) =
          some 120 := by
        rw [List.get?_append (by omega),
          List.get?_append_right (by simp [List.length_append, wrapPre_length]; omega)]
        have hidx : 29 + guid.length + 1 - (wrapPre ++ guid).length = 4 := by
          simp [List.length_append, wrapPre_length]
          omega
        rw [hidx]
        decide
      exact hp1b (by rw [← hx1, hc])

/-- A nonnegative Python slice bound is the minimum with the length. -/
theorem pyBound_natCast (n k : Nat) : pyBound n (k : Int) = min k n := by
  unfold pyBound
  rw [if_neg (by omega)]
  simp

/-- C7 amended: the round trip `unwrap_packet (wrap_packet r id) = r` holds
when `r` itself is a serialized RDF element: `r` starts with `<rdf:RDF`, its
first `</rdf:RDF>` is exactly its last 10 bytes, and the id contains no `<`
byte (as the hex ids the source generates never do).  It does not hold for
arbitrary marker-free byte strings, since `unwrap` cuts from the first
`<rdf:RDF` to the first `</rdf:RDF>` inclusive. -/
theorem c7_roundtrip_amended (r guid : List Nat) (i : Nat)
    (hg : 60 ∉ guid)
    (h1 : (bs "<rdf:RDF").isPrefixOf r = true)
    (h2 : subFind (bs "</rdf:RDF>") r = some i)
    (h3 : i + 10 = r.length) :
    unwrap_packet (wrap_packet r guid) = r := by
  obtain ⟨hocc2, hmin2⟩ := subFind_spec (bs "</rdf:RDF>") (by decide) r i h2
  have hHlen : (wrapPre ++ guid ++ wrapMid).length = 65 + guid.length := by
    simp [List.length_append, wrapPre_length, wrapMid_length]
    omega
  have hfind1 : subFind (bs "<rdf:RDF") ((wrapPre ++ guid ++ wrapMid) ++ (r ++ wrapSuf)) =
      some (wrapPre ++ guid ++ wrapMid).length := by
    apply subFind_eq_some _ (by decide)
    · rw [List.drop_left]
      exact isPrefixOf_append_left _ _ _ h1
    · intro j hj
      exact no_marker_in_header guid (r ++ wrapSuf) hg _ (by decide) (by decide)
        (by decide) (by decide) j (by omega)
  have hfind2 : subFind (bs "</rdf:RDF>") ((wrapPre ++ guid ++ wrapMid) ++ (r ++ wrapSuf)) =
      some ((wrapPre ++ guid ++ wrapMid).length + i) := by
    apply subFind_eq_some _ (by decide)
    · rw [List.drop_append, List.drop_append_of_le_length (by omega)]
      exact isPrefixOf_append_left _ _ _ hocc2
    · intro j hj
      by_cases hjh : j < (wrapPre ++ guid ++ wrapMid).length
      · exact no_marker_in_header guid (r ++ wrapSuf) hg _ (by decide) (by decide)
          (by decide) (by decide) j (by omega)
      · obtain ⟨j', rfl⟩ : ∃ j', j = (wrapPre ++ guid ++ wrapMid).length + j' :=
          ⟨j - (wrapPre ++ guid ++ wrapMid).length, by omega⟩
        have hj' : j' < i := by omega
        rw [List.drop_append, List.drop_append_of_le_length (by omega)]
        cases hbb : (bs "</rdf:RDF>").isPrefixOf (r.drop j' ++ wrapSuf) with
        | false => rfl
        | true =>
          exfalso
          have hfit : (bs "</rdf:RDF>").length ≤ (r.drop j').length := by
            rw [List.length_drop]
            have hten : (bs "</rdf:RDF>").length = 10 := by decide
            omega
          have hpp := isPrefixOf_of_append _ _ _ hfit hbb
          rw [hmin2 j' hj'] at hpp
          exact Bool.noConfusion hpp
  rw [wrap_decomp]
  unfold unwrap_packet pyFind
  rw [hfind1, hfind2]
  dsimp only
  have hb : (((wrapPre ++ guid ++ wrapMid).length + i : Nat) : Int) + 10 =
      (((wrapPre ++ guid ++ wrapMid).length + i + 10 : Nat) : Int) := by
    push_cast
    ring
  rw [hb]
  unfold pyslice
  rw [pyBound_natCast, pyBound_natCast]
  have hn : ((wrapPre ++ guid ++ wrapMid) ++ (r ++ wrapSuf)).length =
      (wrapPre ++ guid ++ wrapMid).length + (r.length + 31) := by
    simp [List.length_append, wrapSuf_length]
    omega
  rw [hn]
  have hmin1 : min (wrapPre ++ guid ++ wrapMid).length
      ((wrapPre ++ guid ++ wrapMid).length + (r.length + 31)) =
      (wrapPre ++ guid ++ wrapMid).length := by omega
  have hminb : min ((wrapPre ++ guid ++ wrapMid).length + i + 10)
      ((wrapPre ++ guid ++ wrapMid).length + (r.length + 31)) =
      (wrapPre ++ guid ++ wrapMid).length + r.length := by omega
  rw [hmin1, hminb, List.take_append, List.take_left, List.drop_left]

/-- C7 witness: the round trip holds for the concrete RDF element
`<rdf:RDF></rdf:RDF>` with the id `abc`. -/
theorem c7_roundtrip_amended_witness :
    unwrap_packet (wrap_packet (bs "<rdf:RDF></rdf:RDF>") (bs "abc")) =
      bs "<rdf:RDF></rdf:RDF>" :=
  c7_roundtrip_amended (bs "<rdf:RDF></rdf:RDF>") (bs "abc") 9
    (by decide) (by decide) (by decide) (by decide)

end Tinyxmp
